import Mathlib

/-!
Shallow embedding of the audio-reactive sequencer and capture pipeline of
src/components/Step4Preview.tsx (JUS-DNCE).  Levels, times and progress
percentages are modelled as rationals; the 0-100 intensity slider value is a
rational parameter; list state is explicit.  Each definition is translated
from the cited source lines.
-/

namespace JusDnce

/-- Pose identifiers (types.ts, PoseType). -/
inductive PoseType where
  | base
  | var1
  | var2
  | var3
deriving DecidableEq, Repr

/-- Ping-pong pose cycle (Step4Preview.tsx line 232):
the fixed array [base, var1, var2, var3, var2, var1]. -/
def sequence : List PoseType :=
  [PoseType.base, PoseType.var1, PoseType.var2, PoseType.var3, PoseType.var2, PoseType.var1]

/-- Rolling-history capacity (line 208): const historySize = 60. -/
def historySize : ℕ := 60

/-- Push one bass-energy sample (lines 209-212): push, then shift (drop the
oldest, i.e. first, element) when the length exceeds historySize. -/
def pushEnergy (h : List ℚ) (x : ℚ) : List ℚ :=
  let h2 := h ++ [x]
  if historySize < h2.length then h2.drop 1 else h2

/-- Rolling mean of the history (line 215):
reduce with initial accumulator 0, divided by the length. -/
def avgEnergy (h : List ℚ) : ℚ :=
  h.foldl (fun a b => a + b) 0 / (h.length : ℚ)

/-- Sensitivity multiplier (line 218): 1.5 - intensity / 200. -/
def sensitivity (intensity : ℚ) : ℚ :=
  3/2 - intensity / 200

/-- Beat threshold (line 219): rolling mean times the sensitivity multiplier. -/
def threshold (avg intensity : ℚ) : ℚ :=
  avg * sensitivity intensity

/-- Beat acceptance (lines 222-227): accept when bassLevel exceeds both the
threshold and the 0.3 floor and strictly more than 200 ms have passed since
the last accepted beat; on acceptance the timestamp becomes the new
last-beat time, otherwise the last-beat time is kept. -/
def beatAccept (bassLevel thr time lastBeat : ℚ) : Bool × ℚ :=
  if bassLevel > thr ∧ bassLevel > 3/10 then
    if time - lastBeat > 200 then (true, time)
    else (false, lastBeat)
  else (false, lastBeat)

/-- Detector state carried across frames: the energy history and the
timestamp of the last accepted beat (energyHistoryRef, lastBeatTimeRef). -/
structure BeatState where
  history : List ℚ
  lastBeatTime : ℚ
deriving DecidableEq, Repr

/-- One detector frame (lines 208-227): push the sample, compute the rolling
mean and the threshold, then run the acceptance test. -/
def beatStep (st : BeatState) (bassLevel time intensity : ℚ) : Bool × BeatState :=
  let h := pushEnergy st.history bassLevel
  let avg := avgEnergy h
  let thr := threshold avg intensity
  let r := beatAccept bassLevel thr time st.lastBeatTime
  (r.1, { history := h, lastBeatTime := r.2 })

/-- Sequencer advance on an accepted beat (lines 237-242): index + 1 modulo
the cycle length, then, when the stutter applies, a further + 2 modulo the
cycle length. -/
def advanceIndex (i : ℕ) (stutter : Bool) : ℕ :=
  let i1 := (i + 1) % sequence.length
  if stutter then (i1 + 2) % sequence.length else i1

/-- Flash reset on beat (line 235): an accepted beat sets the intensity
to 1.0, otherwise it is left as is at this point of the frame. -/
def flashOnBeat (flash : ℚ) (isBeat : Bool) : ℚ :=
  if isBeat then 1 else flash

/-- Result of the overlay stage of one frame: the flash value after the
stage, whether the white overlay was drawn, and its alpha. -/
structure FlashRender where
  flash : ℚ
  overlayDrawn : Bool
  overlayAlpha : ℚ
deriving DecidableEq, Repr

/-- Beat-flash overlay stage (lines 285-291): only when the intensity
exceeds 0.01 is it multiplied by 0.85 and the overlay drawn with alpha
equal to the decayed intensity times 0.15. -/
def flashOverlayStep (flash : ℚ) : FlashRender :=
  if flash > 1/100 then
    let f := flash * (85/100)
    { flash := f, overlayDrawn := true, overlayAlpha := f * (15/100) }
  else
    { flash := flash, overlayDrawn := false, overlayAlpha := 0 }

/-- Observable state of one capture session (handleDownload, lines 356-441,
with the recorder onstop handler of lines 400-420 folded in): whether the
encoder is live, whether the 100 ms poll interval is still installed, the
reported progress, the audio loop flag and playback position, and counters
of encoder stops and playback pauses. -/
structure CaptureState where
  recording : Bool
  intervalActive : Bool
  progress : ℚ
  loop : Bool
  position : ℚ
  stopCount : ℕ
  pauseCount : ℕ
deriving DecidableEq, Repr

/-- State right after capture start (lines 364-373, 423): recording, poll
interval installed, progress 0, looping disabled, position reset to 0. -/
def captureStart : CaptureState :=
  { recording := true
    intervalActive := true
    progress := 0
    loop := false
    position := 0
    stopCount := 0
    pauseCount := 0 }

/-- One 100 ms poll (lines 428-440) reading the playback clock: while the
interval is installed, report progress min(99, clock / duration * 100);
when the clock has reached the duration, stop the encoder, pause playback,
clear the interval and set progress 100 — and the onstop handler
(lines 400-420) then restores looping and resets the position to 0 and ends
the recording. -/
def pollTick (duration : ℚ) (st : CaptureState) (clock : ℚ) : CaptureState :=
  if st.intervalActive then
    let st1 := { st with progress := min 99 (clock / duration * 100) }
    if clock ≥ duration then
      { st1 with
          stopCount := st1.stopCount + 1
          pauseCount := st1.pauseCount + 1
          intervalActive := false
          progress := 100
          loop := true
          position := 0
          recording := false }
    else st1
  else st

/-- Whole capture run over a list of polled clock readings. -/
def runCapture (duration : ℚ) (clocks : List ℚ) : CaptureState :=
  List.foldl (pollTick duration) captureStart clocks

/-- App-level state relevant to starting a capture: the isRecording flag,
asset readiness, audio-engine readiness, and the number of encoder sessions
created so far. -/
structure AppCaptureState where
  isRecording : Bool
  imagesReady : Bool
  engineReady : Bool
  sessionCount : ℕ
deriving DecidableEq, Repr

/-- Body of handleDownload (lines 356-365): when the engine refs are ready
it sets isRecording and creates one encoder session, otherwise it reports an
error and returns. -/
def handleDownload (st : AppCaptureState) : AppCaptureState :=
  if st.engineReady then
    { st with isRecording := true, sessionCount := st.sessionCount + 1 }
  else st

/-- The only caller of handleDownload is the Download Video button
(lines 520-527), disabled while isRecording or while images are not ready;
a click on a disabled button does nothing. -/
def clickDownload (st : AppCaptureState) : AppCaptureState :=
  if st.isRecording || !st.imagesReady then st
  else handleDownload st

/-! Helper lemmas shared by several theorems. -/

lemma pushEnergy_length_le (h : List ℚ) (x : ℚ) (hlen : h.length ≤ 60) :
    (pushEnergy h x).length ≤ 60 := by
  unfold pushEnergy historySize
  dsimp only []
  by_cases hc : 60 < (h ++ [x]).length
  · rw [if_pos hc]
    simp only [List.length_drop, List.length_append, List.length_singleton]
    omega
  · rw [if_neg hc]
    omega

lemma foldl_pushEnergy_length_le (xs : List ℚ) :
    ∀ h : List ℚ, h.length ≤ 60 → (List.foldl pushEnergy h xs).length ≤ 60 := by
  induction xs with
  | nil => intro h hl; simpa using hl
  | cons y ys ih => intro h hl; exact ih _ (pushEnergy_length_le h y hl)

/-- Claim C4: EnergyHistory bounded FIFO.  Starting from any history within
the 60-sample capacity, a push keeps the length within capacity; below
capacity the sample is appended with no eviction, at capacity exactly the
oldest (first) sample is evicted; and any further sequence of pushes keeps
the length within capacity. -/
theorem energyHistory_boundedFifo (h : List ℚ) (x : ℚ) (xs : List ℚ)
    (hlen : h.length ≤ 60) :
    (pushEnergy h x).length ≤ 60
    ∧ pushEnergy h x = (if h.length < 60 then h ++ [x] else h.drop 1 ++ [x])
    ∧ (List.foldl pushEnergy (pushEnergy h x) xs).length ≤ 60 := by
  refine ⟨pushEnergy_length_le h x hlen, ?_,
    foldl_pushEnergy_length_le xs _ (pushEnergy_length_le h x hlen)⟩
  by_cases hlt : h.length < 60
  · rw [if_pos hlt]
    unfold pushEnergy historySize
    rw [if_neg]
    simp
    omega
  · rw [if_neg hlt]
    have heq : h.length = 60 := by omega
    unfold pushEnergy historySize
    rw [if_pos (by simp [heq])]
    rw [List.drop_append_of_le_length (by omega)]

/-- Claim C4 witness: a full 60-sample history evicts its oldest sample on
the next push and stays at length 60. -/
theorem energyHistory_boundedFifo_wit :
    (pushEnergy (List.replicate 60 (0 : ℚ)) 1).length ≤ 60
    ∧ pushEnergy (List.replicate 60 (0 : ℚ)) 1
        = (if (List.replicate 60 (0 : ℚ)).length < 60
            then List.replicate 60 (0 : ℚ) ++ [1]
            else (List.replicate 60 (0 : ℚ)).drop 1 ++ [1])
    ∧ (List.foldl pushEnergy (pushEnergy (List.replicate 60 (0 : ℚ)) 1) [2, 3]).length ≤ 60 :=
  energyHistory_boundedFifo (List.replicate 60 (0 : ℚ)) 1 [2, 3] (by simp)

/-- Claim C5 counterexample: at baseline 0 the threshold is 0 for every
setting, so raising the reactivity setting from 0 to 100 does not strictly
decrease the threshold — the claim fails for the fixed baseline 0. -/
theorem sensitivity_monotonicity_cex :
    threshold 0 100 = threshold 0 0 ∧ ¬ threshold 0 100 < threshold 0 0 := by
  norm_num [threshold, sensitivity]

/-- Claim C5 amended: for a fixed positive baseline, increasing the setting
strictly decreases the threshold baseline * (1.5 - setting/200); for a
nonnegative baseline the threshold is monotonically nonincreasing. -/
theorem sensitivity_monotonicity (avg i1 i2 : ℚ) (h12 : i1 < i2) :
    (0 < avg → threshold avg i2 < threshold avg i1)
    ∧ (0 ≤ avg → threshold avg i2 ≤ threshold avg i1) := by
  constructor <;> intro ha <;> unfold threshold sensitivity <;> nlinarith

/-- Claim C5 witness: at baseline 1/2, setting 100 yields a strictly lower
threshold than setting 0. -/
theorem sensitivity_monotonicity_wit :
    threshold (1/2) 100 < threshold (1/2) 0 :=
  (sensitivity_monotonicity (1/2) 0 100 (by norm_num)).1 (by norm_num)

/-- Claim C6: the sensitivity multiplier 1.5 - setting/200 evaluated over
the 0-100 slider: at the lowest setting it is 1.5 as documented, but at the
highest setting it is 1.0, not the documented 0.5 floor — the code comment
(0.5 sensitive to 1.5 dull) and the spec disagree with the expression. -/
theorem sensitivity_range_at_max :
    sensitivity 100 = 1 ∧ sensitivity 100 ≠ 1/2 ∧ sensitivity 0 = 3/2 := by
  norm_num [sensitivity]

/-- Claim C7: sequencer cycle.  The cycle array is the fixed length-6
ping-pong order; a no-stutter advance is +1 modulo 6 and a stutter advance
adds a further +2 modulo 6; starting at index 0, the six indices reached by
consecutive no-stutter advances run through the array in its listed order
and the index returns to 0 (base) after exactly 6 advances. -/
theorem sequencer_cycle :
    (∀ i : ℕ, advanceIndex i false = (i + 1) % 6)
    ∧ (∀ i : ℕ, advanceIndex i true = ((i + 1) % 6 + 2) % 6)
    ∧ sequence.length = 6
    ∧ (List.range 6).map (fun k => sequence.get? ((fun i => advanceIndex i false)^[k] 0))
        = [some PoseType.base, some PoseType.var1, some PoseType.var2,
           some PoseType.var3, some PoseType.var2, some PoseType.var1]
    ∧ (fun i => advanceIndex i false)^[6] 0 = 0 := by
  refine ⟨?_, ?_, by decide, by decide, by decide⟩
  · intro i; simp [advanceIndex, sequence]
  · intro i; simp [advanceIndex, sequence]

lemma pollTick_before (D : ℚ) (st : CaptureState) (c : ℚ)
    (hact : st.intervalActive = true) (hc : c < D) :
    pollTick D st c = { st with progress := min 99 (c / D * 100) } := by
  unfold pollTick
  rw [if_pos hact, if_neg (not_le.mpr hc)]

lemma pollTick_terminal (D : ℚ) (st : CaptureState) (c : ℚ)
    (hact : st.intervalActive = true) (hc : D ≤ c) :
    pollTick D st c =
      { recording := false
        intervalActive := false
        progress := 100
        loop := true
        position := 0
        stopCount := st.stopCount + 1
        pauseCount := st.pauseCount + 1 } := by
  unfold pollTick
  rw [if_pos hact, if_pos hc]

lemma pollTick_inactive (D : ℚ) (st : CaptureState) (c : ℚ)
    (hact : st.intervalActive = false) :
    pollTick D st c = st := by
  unfold pollTick
  rw [if_neg (by simp [hact])]

lemma foldl_pollTick_pre (D : ℚ) (cs : List ℚ) :
    ∀ st : CaptureState, st.intervalActive = true → (∀ c ∈ cs, c < D) →
      (List.foldl (pollTick D) st cs).intervalActive = true
      ∧ (List.foldl (pollTick D) st cs).stopCount = st.stopCount
      ∧ (List.foldl (pollTick D) st cs).pauseCount = st.pauseCount
      ∧ (List.foldl (pollTick D) st cs).recording = st.recording
      ∧ (List.foldl (pollTick D) st cs).loop = st.loop
      ∧ (List.foldl (pollTick D) st cs).position = st.position := by
  induction cs with
  | nil => intro st h _; exact ⟨h, rfl, rfl, rfl, rfl, rfl⟩
  | cons c cs ih =>
    intro st h hcs
    rw [List.foldl_cons, pollTick_before D st c h (hcs c (by simp))]
    have hrest := ih { st with progress := min 99 (c / D * 100) } h
      (fun x hx => hcs x (by simp [hx]))
    simpa using hrest

lemma foldl_pollTick_inactive (D : ℚ) (cs : List ℚ) :
    ∀ st : CaptureState, st.intervalActive = false →
      List.foldl (pollTick D) st cs = st := by
  induction cs with
  | nil => intro st _; rfl
  | cons c cs ih =>
    intro st h
    rw [List.foldl_cons, pollTick_inactive D st c h]
    exact ih st h

/-- Claim C2: capture termination.  For a positive target duration, a run
whose polled clock readings stay below the duration until one reading
reaches it stops the encoder and pauses playback exactly once, reports
progress 100, re-enables looping, resets the position to 0, and ends the
recording, with any later polls inert; and any poll before the
termination point reports progress min(99, clock / duration * 100) and
stops nothing. -/
theorem capture_termination (D cD : ℚ) (pre post : List ℚ)
    (stR : CaptureState) (cR : ℚ)
    (hD : 0 < D) (hpre : ∀ c ∈ pre, c < D) (hcD : D ≤ cD)
    (hactR : stR.intervalActive = true) (hcR : cR < D) :
    (runCapture D (pre ++ cD :: post)).stopCount = 1
    ∧ (runCapture D (pre ++ cD :: post)).pauseCount = 1
    ∧ (runCapture D (pre ++ cD :: post)).progress = 100
    ∧ (runCapture D (pre ++ cD :: post)).loop = true
    ∧ (runCapture D (pre ++ cD :: post)).position = 0
    ∧ (runCapture D (pre ++ cD :: post)).recording = false
    ∧ (pollTick D stR cR).progress = min 99 (cR / D * 100)
    ∧ (pollTick D stR cR).stopCount = stR.stopCount := by
  obtain ⟨h1, h2, h3, _, _, _⟩ := foldl_pollTick_pre D pre captureStart rfl hpre
  unfold runCapture
  rw [List.foldl_append, List.foldl_cons,
    pollTick_terminal D _ cD h1 hcD,
    foldl_pollTick_inactive D post _ rfl]
  refine ⟨by rw [h2]; rfl, by rw [h3]; rfl, rfl, rfl, rfl, rfl, ?_, ?_⟩
  · rw [pollTick_before D stR cR hactR hcR]
  · rw [pollTick_before D stR cR hactR hcR]

/-- Claim C2 witness: with duration 10, one early poll at clock 5 and the
terminating poll at clock 10, the run stops once, reports 100, and restores
loop and position; the early poll itself reported min(99, 50). -/
theorem capture_termination_wit :
    (runCapture 10 ([5] ++ 10 :: [])).stopCount = 1
    ∧ (runCapture 10 ([5] ++ 10 :: [])).pauseCount = 1
    ∧ (runCapture 10 ([5] ++ 10 :: [])).progress = 100
    ∧ (runCapture 10 ([5] ++ 10 :: [])).loop = true
    ∧ (runCapture 10 ([5] ++ 10 :: [])).position = 0
    ∧ (runCapture 10 ([5] ++ 10 :: [])).recording = false
    ∧ (pollTick 10 captureStart 5).progress = min 99 (5 / 10 * 100)
    ∧ (pollTick 10 captureStart 5).stopCount = captureStart.stopCount :=
  capture_termination 10 10 [5] [] captureStart 5 (by norm_num)
    (by intro c hc; rw [List.mem_singleton] at hc; rw [hc]; norm_num)
    (by norm_num) rfl (by norm_num)

/-- Claim C3: capture re-entrancy guard.  While a session is recording, the
capture-start operation reachable by the user (the Download Video button,
which is disabled while isRecording) leaves the state untouched: no second
encoder session is created and the session count is unchanged. -/
theorem capture_reentrancy (st : AppCaptureState) (hrec : st.isRecording = true) :
    clickDownload st = st ∧ (clickDownload st).sessionCount = st.sessionCount := by
  unfold clickDownload
  rw [if_pos (by simp [hrec])]
  exact ⟨rfl, rfl⟩

/-- Claim C3 witness: with one session recording, a second click changes
nothing and the session count stays 1. -/
theorem capture_reentrancy_wit :
    clickDownload
        { isRecording := true, imagesReady := true, engineReady := true, sessionCount := 1 }
      = { isRecording := true, imagesReady := true, engineReady := true, sessionCount := 1 }
    ∧ (clickDownload
        { isRecording := true, imagesReady := true, engineReady := true, sessionCount := 1 }).sessionCount
      = 1 :=
  capture_reentrancy
    { isRecording := true, imagesReady := true, engineReady := true, sessionCount := 1 } rfl

/-- Claim C1 counterexample: on a frame where the bass level beats the
threshold and the 0.3 floor and exactly 200 ms have elapsed since the last
beat, the code rejects the beat, against the claim that elapsed-at-least-
200-ms frames passing both level tests are accepted. -/
theorem beat_acceptance_cex :
    (beatStep { history := [0, 0, 0], lastBeatTime := 0 } (1/2) 200 50).1 = false
    ∧ (1/2 : ℚ) > threshold (avgEnergy (pushEnergy [0, 0, 0] (1/2))) 50
    ∧ (1/2 : ℚ) > 3/10
    ∧ (200 : ℚ) - 0 ≥ 200 := by
  norm_num [beatStep, beatAccept, pushEnergy, avgEnergy, threshold, sensitivity, historySize]

/-- Claim C1 amended: the detector frame accepts a beat iff the bass level
exceeds the sensitivity threshold over the pushed history and the 0.3 floor
and STRICTLY more than 200 ms have elapsed since the last accepted beat; on
acceptance the frame timestamp becomes the last-beat time, on rejection the
last-beat time is unchanged, and in both cases the history gains the
sample. -/
theorem beat_acceptance (st : BeatState) (b t i : ℚ) :
    ((beatStep st b t i).1 = true ↔
      b > threshold (avgEnergy (pushEnergy st.history b)) i ∧ b > 3/10
        ∧ t - st.lastBeatTime > 200)
    ∧ (beatStep st b t i).2.history = pushEnergy st.history b
    ∧ ((beatStep st b t i).1 = true → (beatStep st b t i).2.lastBeatTime = t)
    ∧ ((beatStep st b t i).1 = false →
        (beatStep st b t i).2.lastBeatTime = st.lastBeatTime) := by
  unfold beatStep beatAccept
  dsimp only []
  by_cases h1 : b > threshold (avgEnergy (pushEnergy st.history b)) i ∧ b > 3/10
  · rw [if_pos h1]
    by_cases h2 : t - st.lastBeatTime > 200
    · rw [if_pos h2]
      simp [h1, h2]
    · rw [if_neg h2]
      simp [h1, h2]
  · rw [if_neg h1]
    simp [h1]
    tauto

/-- Claim C1 witness: a frame clearing both level tests 300 ms after the
last beat is accepted and records 300 as the new last-beat time. -/
theorem beat_acceptance_wit :
    (beatStep { history := [0, 0, 0], lastBeatTime := 0 } (1/2) 300 50).1 = true
    ∧ (beatStep { history := [0, 0, 0], lastBeatTime := 0 } (1/2) 300 50).2.lastBeatTime
        = 300 := by
  have hthm := beat_acceptance { history := [0, 0, 0], lastBeatTime := 0 } (1/2) 300 50
  have hb : (beatStep { history := [0, 0, 0], lastBeatTime := 0 } (1/2) 300 50).1 = true :=
    hthm.1.mpr ⟨by norm_num [pushEnergy, avgEnergy, threshold, sensitivity, historySize],
      by norm_num, by norm_num⟩
  exact ⟨hb, hthm.2.2.1 hb⟩

/-- Claim C8 counterexample: at flash intensity 0.005 (at most 0.01) a
no-beat frame leaves the intensity unchanged instead of multiplying it by
0.85, against the claim that the decay applies regardless of the current
value. -/
theorem flash_decay_cex :
    (flashOverlayStep (1/200)).flash = 1/200
    ∧ (flashOverlayStep (1/200)).flash ≠ (1/200) * (85/100) := by
  norm_num [flashOverlayStep]

/-- Claim C8 amended: on a no-beat frame the flash intensity is multiplied
by 0.85 exactly when it exceeds 0.01, in which case the white overlay is
drawn with alpha 0.15 times the decayed intensity; at or below 0.01 the
intensity is unchanged and no overlay is drawn; the alpha never exceeds
0.15 for intensities in [0, 1]; an accepted beat resets the intensity
to 1. -/
theorem flash_decay (flash : ℚ) (h0 : 0 ≤ flash) (h1 : flash ≤ 1) :
    (flashOverlayStep flash).flash
        = (if 1/100 < flash then flash * (85/100) else flash)
    ∧ ((flashOverlayStep flash).overlayDrawn = true ↔ 1/100 < flash)
    ∧ (flashOverlayStep flash).overlayAlpha
        = (if 1/100 < flash then flash * (85/100) * (15/100) else 0)
    ∧ (flashOverlayStep flash).overlayAlpha ≤ 15/100
    ∧ flashOnBeat flash true = 1 := by
  by_cases hc : (1/100 : ℚ) < flash
  · unfold flashOverlayStep flashOnBeat
    rw [if_pos hc, if_pos hc, if_pos hc]
    refine ⟨rfl, iff_of_true rfl hc, rfl, ?_, rfl⟩
    dsimp only []
    nlinarith
  · unfold flashOverlayStep flashOnBeat
    rw [if_neg hc, if_neg hc, if_neg hc]
    refine ⟨rfl, iff_of_false (by simp) hc, rfl, by norm_num, rfl⟩

/-- Claim C8 witness: at flash intensity 1/2 the frame decays it to 0.425
and draws the overlay with alpha at most 0.15. -/
theorem flash_decay_wit :
    (flashOverlayStep (1/2)).flash
        = (if (1:ℚ)/100 < 1/2 then (1/2) * (85/100) else (1/2))
    ∧ ((flashOverlayStep (1/2)).overlayDrawn = true ↔ (1:ℚ)/100 < 1/2)
    ∧ (flashOverlayStep (1/2)).overlayAlpha
        = (if (1:ℚ)/100 < 1/2 then (1/2) * (85/100) * (15/100) else 0)
    ∧ (flashOverlayStep (1/2)).overlayAlpha ≤ 15/100
    ∧ flashOnBeat (1/2) true = 1 :=
  flash_decay (1/2) (by norm_num) (by norm_num)

/-- Claim C9 counterexample: starting from an empty history, the frame
pushes the incoming sample before averaging, so the computed baseline is
the sample itself (here 1/2), not 0 as the claim states. -/
theorem empty_history_cex :
    avgEnergy (pushEnergy [] (1/2)) = 1/2 ∧ (1/2 : ℚ) ≠ 0 := by
  norm_num [pushEnergy, avgEnergy, historySize]

/-- Claim C9 amended: with an empty pre-frame history the computed rolling
baseline equals the incoming bass level (the just-pushed single sample),
the computation is total, and still no beat fires on that frame for any
nonnegative bass level and any slider setting in [0, 100], because the
threshold multiplier is then at least 1. -/
theorem empty_history_policy (b t l i : ℚ) (hb : 0 ≤ b) (hi0 : 0 ≤ i)
    (hi1 : i ≤ 100) :
    avgEnergy (pushEnergy [] b) = b
    ∧ (beatStep { history := [], lastBeatTime := l } b t i).1 = false := by
  have hpush : pushEnergy [] b = [b] := by norm_num [pushEnergy, historySize]
  have havg : avgEnergy [b] = b := by simp [avgEnergy]
  refine ⟨by rw [hpush, havg], ?_⟩
  unfold beatStep
  dsimp only []
  rw [hpush, havg]
  unfold beatAccept
  rw [if_neg]
  · intro hcon
    have h1 := hcon.1
    unfold threshold sensitivity at h1
    nlinarith

/-- Claim C9 witness: with an empty history, sample 1/2 at setting 50 gives
baseline 1/2 and no beat. -/
theorem empty_history_policy_wit :
    avgEnergy (pushEnergy [] (1/2)) = 1/2
    ∧ (beatStep { history := [], lastBeatTime := 0 } (1/2) 1000 50).1 = false :=
  empty_history_policy (1/2) 1000 0 50 (by norm_num) (by norm_num) (by norm_num)

/-- Claim C10: from any starting index, with or without the stutter, the
advanced sequence index stays below the cycle length 6, so the pose lookup
into the cycle array is always defined. -/
theorem advanceIndex_inBounds (i : ℕ) (st : Bool) :
    advanceIndex i st < sequence.length := by
  unfold advanceIndex sequence
  rcases st <;> simp <;> omega

end JusDnce
